import Mathlib

/-!
Formal model of the IP-Adapter runtime conditioning engine from
`IPAdapterPlus.py`.  Tensors are rational-valued arrays carrying explicit
dimensions together with a total data function (entries outside the declared
dimensions are junk and are never compared).  Torch primitives that live
outside the repository (`optimized_attention`, `F.interpolate`, `GELU`,
`LayerNorm`) are modelled from the spec, as noted on each definition; every
other definition is a direct translation of the corresponding Python
function.  Floating point arithmetic is modelled by exact rationals.
-/

namespace IPA

/-- Rank-2 tensor (batch, channels): explicit dims plus a total data
function; entries outside the dims are junk and never inspected. -/
structure T2 where
  b : Nat
  c : Nat
  data : Nat → Nat → ℚ

/-- Rank-3 tensor (batch, tokens, channels), the shape of every conditioning
tensor and attention operand in `CrossAttentionPatch.__call__`. -/
structure T3 where
  b : Nat
  n : Nat
  c : Nat
  data : Nat → Nat → Nat → ℚ

theorem T3.eqOf {x y : T3} (hb : x.b = y.b) (hn : x.n = y.n) (hc : x.c = y.c)
    (hd : x.data = y.data) : x = y := by
  cases x
  cases y
  simp only [T3.mk.injEq]
  exact ⟨hb, hn, hc, hd⟩

/-- Pointwise scalar multiplication, `tensor * w` in torch. -/
def T3.scale (x : T3) (a : ℚ) : T3 :=
  ⟨x.b, x.n, x.c, fun i t e => x.data i t e * a⟩

/-- Pointwise addition `out + out_ip` (shapes agree at every use site; dims
are taken from the left operand). -/
def T3.add (x y : T3) : T3 :=
  ⟨x.b, x.n, x.c, fun i t e => x.data i t e + y.data i t e⟩

/-- Pointwise multiplication `out_ip * mask_downsample` (dims from the left
operand). -/
def T3.mul (x y : T3) : T3 :=
  ⟨x.b, x.n, x.c, fun i t e => x.data i t e * y.data i t e⟩

/-- Torch `tensor.repeat(r, 1, 1)`: tile `r` copies along the batch
dimension. -/
def T3.repeatBatch (x : T3) (r : Nat) : T3 :=
  ⟨r * x.b, x.n, x.c, fun i t e => x.data (i % x.b) t e⟩

/-- Torch batch slicing `tensor[:m]`. -/
def T3.takeB (x : T3) (m : Nat) : T3 :=
  ⟨min m x.b, x.n, x.c, x.data⟩

/-- Torch `tensor[-1:]`: the last batch row, kept 3-dimensional. -/
def T3.lastRow (x : T3) : T3 :=
  ⟨1, x.n, x.c, fun _ t e => x.data (x.b - 1) t e⟩

/-- Torch `torch.cat((x, y), dim=0)`. -/
def T3.catB (x y : T3) : T3 :=
  ⟨x.b + y.b, x.n, x.c, fun i t e =>
    if i < x.b then x.data i t e else y.data (i - x.b) t e⟩

/-- Torch integer-array indexing `tensor[idxs]` along the batch dimension. -/
def T3.select (x : T3) (idxs : List Nat) : T3 :=
  ⟨idxs.length, x.n, x.c, fun i t e => x.data (idxs.getD i 0) t e⟩

/-- Torch `torch.cat(pieces, dim=0)` over a list of tensors (token and
channel dims are equal across pieces at every use site). -/
def catListB : List T3 → T3
  | [] => ⟨0, 0, 0, fun _ _ _ => 0⟩
  | x :: xs => xs.foldl T3.catB x

theorem catListB_n_foldl (xs : List T3) (acc : T3) :
    (xs.foldl T3.catB acc).n = acc.n := by
  induction xs generalizing acc with
  | nil => rfl
  | cons y ys ih => exact (ih (acc.catB y))

theorem catListB_cons_n (x : T3) (xs : List T3) : (catListB (x :: xs)).n = x.n :=
  catListB_n_foldl xs x

theorem catListB_cons_c_foldl (xs : List T3) (acc : T3) :
    (xs.foldl T3.catB acc).c = acc.c := by
  induction xs generalizing acc with
  | nil => rfl
  | cons y ys ih => exact (ih (acc.catB y))

theorem catListB_cons_c (x : T3) (xs : List T3) : (catListB (x :: xs)).c = x.c :=
  catListB_cons_c_foldl xs x

/-- Modelled from the spec: the host's softmax kernel uses the real
exponential, which is not available over ℚ; `posExp` is an executable
positive surrogate.  Every theorem below uses only that it is a function
and that it is strictly positive, properties shared with the real
exponential. -/
def posExp (x : ℚ) : ℚ :=
  if 0 ≤ x then 1 + x else 1 / (1 - x)

theorem posExp_zero : posExp 0 = 1 := by
  simp [posExp]

/-- Per-head attention logit: the q·k dot product restricted to head `h`'s
channel block (block width `d = q.c / heads`). -/
def attnLogit (q k : T3) (d i s t h : Nat) : ℚ :=
  ∑ e ∈ Finset.range q.c, if e / d = h then q.data i s e * k.data i t e else 0

/-- Modelled from the spec: the host attention primitive
`optimized_attention(q, k, v, heads)` (comfy.ldm.modules.attention, not part
of this repository) is multi-head softmax attention; the irrational
`1/sqrt(head_dim)` logit scale is omitted and the exponential is `posExp`,
neither of which affects any property proved here (only row-stochasticity
of the softmax weights and positivity are used). -/
def attend (q k v : T3) (heads : Nat) : T3 :=
  let d := q.c / heads
  ⟨q.b, q.n, v.c, fun i s e =>
    ∑ t ∈ Finset.range k.n,
      (posExp (attnLogit q k d i s t (e / d)) /
        ∑ u ∈ Finset.range k.n, posExp (attnLogit q k d i s u (e / d))) *
        v.data i t e⟩

theorem attend_data_of_v_zero (q k v : T3) (heads : Nat)
    (hv : ∀ i t e, v.data i t e = 0) :
    ∀ i s e, (attend q k v heads).data i s e = 0 := by
  intro i s e
  simp [attend, hv]

theorem attend_data_of_k_zero (q k v : T3) (heads : Nat)
    (hk : ∀ i t e, k.data i t e = 0) :
    ∀ i s e, (attend q k v heads).data i s e =
      (∑ t ∈ Finset.range k.n, v.data i t e) / (k.n : ℚ) := by
  intro i s e
  have hlog : ∀ t h, attnLogit q k (q.c / heads) i s t h = 0 := by
    intro t h
    simp [attnLogit, hk]
  simp only [attend, hlog, posExp_zero]
  rw [Finset.sum_const, Finset.card_range, nsmul_eq_mul, mul_one]
  rw [Finset.sum_div]
  refine Finset.sum_congr rfl ?_
  intro t _
  rw [one_div, inv_mul_eq_div]

/-- Python `str.startswith(pre)`. -/
def strStartsWith (s pre : String) : Bool :=
  pre.data.isPrefixOf s.data

/-- Linear map without bias (`nn.Linear(inDim, outDim, bias=False)`),
applied tokenwise: `y = x · Wᵀ`. -/
structure LinMap where
  inDim : Nat
  outDim : Nat
  w : Nat → Nat → ℚ

def LinMap.apply (L : LinMap) (x : T3) : T3 :=
  ⟨x.b, x.n, L.outDim, fun i t o =>
    ∑ j ∈ Finset.range L.inDim, L.w o j * x.data i t j⟩

/-- The `To_KV` module: a `ModuleDict` from string keys such as
`"3_to_k_ip"` to per-layer linear projections.  The dict construction from
a checkpoint state dict (key renaming) carries no algorithmic weight; the
model keeps the lookup function itself.  A missing key raises in the host
and is never exercised here. -/
structure To_KV where
  to_kvs : String → LinMap

/-- AnimateDiff sliding-context parameters from `extra_options["ad_params"]`. -/
structure ADParams where
  sub_idxs : Option (List Nat)
  full_length : Nat

/-- One zipped entry of the per-slot parallel lists iterated by
`CrossAttentionPatch.__call__` (line 317). -/
structure Slot where
  weight : ℚ
  cond : T3
  uncond : T3
  ip_layers : To_KV
  mask : Option T3
  weight_type : String
  sigma_start : ℚ
  sigma_end : ℚ
  unfold_batch : Bool

/-- The per-call context read from `extra_options`.  `sigmas` holds
`extra_options["sigmas"][0].item()` when the key is present. -/
structure ExtraOptions where
  cond_or_uncond : List Nat
  sigmas : Option ℚ
  ad_params : Option ADParams
  n_heads : Nat
  original_shape : Nat × Nat × Nat × Nat

/-- The noise level used by `__call__` (line 303): the first sigma when the
key is present, otherwise the sentinel `999999999.9`. -/
def sigmaOf (eo : ExtraOptions) : ℚ :=
  match eo.sigmas with
  | some s => s
  | none => 9999999999 / 10

/-- `CrossAttentionPatch`: nine per-slot parallel lists plus the layer
number and the two derived lookup keys. -/
structure CrossAttentionPatch where
  weights : List ℚ
  ip_layers : List To_KV
  conds : List T3
  unconds : List T3
  number : Nat
  weight_type : List String
  masks : List (Option T3)
  sigma_start : List ℚ
  sigma_end : List ℚ
  unfold_batch : List Bool
  k_key : String
  v_key : String

/-- The constructor arguments of `CrossAttentionPatch.__init__` /
`set_new_condition`, i.e. the `patch_kwargs` dict built in
`apply_ipadapter`. -/
structure PatchKwargs where
  weight : ℚ
  ip_layers : To_KV
  number : Nat
  cond : T3
  uncond : T3
  weight_type : String
  mask : Option T3
  sigma_start : ℚ
  sigma_end : ℚ
  unfold_batch : Bool

/-- `CrossAttentionPatch.__init__` (lines 260-274): every per-slot list is
a singleton and the lookup keys are derived from `number`. -/
def CrossAttentionPatch.init (kw : PatchKwargs) : CrossAttentionPatch where
  weights := [kw.weight]
  ip_layers := [kw.ip_layers]
  conds := [kw.cond]
  unconds := [kw.uncond]
  number := kw.number
  weight_type := [kw.weight_type]
  masks := [kw.mask]
  sigma_start := [kw.sigma_start]
  sigma_end := [kw.sigma_end]
  unfold_batch := [kw.unfold_batch]
  k_key := toString (kw.number * 2 + 1) ++ "_to_k_ip"
  v_key := toString (kw.number * 2 + 1) ++ "_to_v_ip"

/-- `CrossAttentionPatch.set_new_condition` (lines 276-285): appends one
entry to each per-slot list; `number` is accepted but ignored. -/
def CrossAttentionPatch.set_new_condition (p : CrossAttentionPatch)
    (kw : PatchKwargs) : CrossAttentionPatch where
  weights := p.weights ++ [kw.weight]
  ip_layers := p.ip_layers ++ [kw.ip_layers]
  conds := p.conds ++ [kw.cond]
  unconds := p.unconds ++ [kw.uncond]
  number := p.number
  weight_type := p.weight_type ++ [kw.weight_type]
  masks := p.masks ++ [kw.mask]
  sigma_start := p.sigma_start ++ [kw.sigma_start]
  sigma_end := p.sigma_end ++ [kw.sigma_end]
  unfold_batch := p.unfold_batch ++ [kw.unfold_batch]
  k_key := p.k_key
  v_key := p.v_key

/-- Python `zip` over the nine parallel lists (line 317); stops at the
shortest list, exactly like `zip`. -/
def zip9 : List ℚ → List T3 → List T3 → List To_KV → List (Option T3) →
    List String → List ℚ → List ℚ → List Bool → List Slot
  | w :: ws, c :: cs, u :: us, l :: ls, m :: ms, t :: ts, s :: ss, e :: es,
      f :: fs =>
    ⟨w, c, u, l, m, t, s, e, f⟩ :: zip9 ws cs us ls ms ts ss es fs
  | _, _, _, _, _, _, _, _, _ => []

def zipSlots (p : CrossAttentionPatch) : List Slot :=
  zip9 p.weights p.conds p.unconds p.ip_layers p.masks p.weight_type
    p.sigma_start p.sigma_end p.unfold_batch

/-- Batch/temporal realignment of one conditioning tensor inside the
`unfold_batch` branch (lines 320-347): optional AnimateDiff sub-index
selection with pad/truncate to `full_length`, then pad-with-last-row or
truncate to `batch_prompt`. -/
def unfoldAlign (ad : Option ADParams) (batch_prompt : Nat) (cond : T3) :
    T3 :=
  let cond :=
    match ad with
    | some a =>
      match a.sub_idxs with
      | some idxs =>
        if a.full_length ≤ cond.b then cond.select idxs
        else
          let cond :=
            if cond.b < a.full_length then
              cond.catB (cond.lastRow.repeatBatch (a.full_length - cond.b))
            else cond
          let cond :=
            if a.full_length < cond.b then cond.takeB a.full_length else cond
          cond.select idxs
      | none => cond
    | none => cond
  if cond.b < batch_prompt then
    cond.catB (cond.lastRow.repeatBatch (batch_prompt - cond.b))
  else if batch_prompt < cond.b then cond.takeB batch_prompt
  else cond

/-- The four projected tensors `(k_cond, k_uncond, v_cond, v_uncond)` of
one slot (lines 320-357): in the unfold branch the conditioning is
realigned and then projected; otherwise it is projected and then tiled
`batch_prompt` times. -/
def slotKV (kk vk : String) (batch_prompt : Nat) (ad : Option ADParams)
    (s : Slot) : T3 × T3 × T3 × T3 :=
  if s.unfold_batch && decide (1 < s.cond.b) then
    let cond := unfoldAlign ad batch_prompt s.cond
    let uncond := unfoldAlign ad batch_prompt s.uncond
    ((s.ip_layers.to_kvs kk).apply cond,
     (s.ip_layers.to_kvs kk).apply uncond,
     (s.ip_layers.to_kvs vk).apply cond,
     (s.ip_layers.to_kvs vk).apply uncond)
  else
    (((s.ip_layers.to_kvs kk).apply s.cond).repeatBatch batch_prompt,
     ((s.ip_layers.to_kvs kk).apply s.uncond).repeatBatch batch_prompt,
     ((s.ip_layers.to_kvs vk).apply s.cond).repeatBatch batch_prompt,
     ((s.ip_layers.to_kvs vk).apply s.uncond).repeatBatch batch_prompt)

/-- The attention grid implied by the query length (lines 383-385).  The
host computes `lh / math.sqrt(lh*lw/qs)` in floating point; over ℚ the
integer part of that square root is modelled by `Nat.sqrt` of the
truncated radicand.  No claim depends on the mask numerics. -/
def maskGrid (lh lw qs : Nat) : Nat × Nat :=
  let m0 := Nat.sqrt (lh * qs / lw)
  let mh := m0 + (if qs % m0 ≠ 0 then 1 else 0)
  (mh, qs / mh)

/-- Modelled from the spec: the host's bicubic `F.interpolate` resize of
the mask to the attention grid (a torch primitive, not part of this
repository), modelled as index-rescaled sampling.  Every theorem below is
independent of the interpolation numerics. -/
def interpMask (mh mw : Nat) (m : T3) : T3 :=
  ⟨m.b, mh, mw, fun i r c => m.data i (r * m.n / mh) (c * m.c / mw)⟩

/-- Mask downsampling and batch alignment (lines 388-414). -/
def maskDownsample (ad : Option ADParams) (batch_prompt mh mw : Nat)
    (mask : T3) : T3 :=
  let md :=
    match ad with
    | some a =>
      match a.sub_idxs with
      | some idxs =>
        if 1 < mask.b then
          if a.full_length ≤ mask.b then interpMask mh mw (mask.select idxs)
          else
            let md := interpMask mh mw mask
            let md :=
              if md.b < a.full_length then
                md.catB (md.lastRow.repeatBatch (a.full_length - md.b))
              else md
            let md :=
              if a.full_length < md.b then md.takeB a.full_length else md
            md.select idxs
        else interpMask mh mw mask
      | none => interpMask mh mw mask
    | none => interpMask mh mw mask
  if md.b < batch_prompt then
    md.catB (md.lastRow.repeatBatch (batch_prompt - md.b))
  else if batch_prompt < md.b then md.takeB batch_prompt
  else md

/-- Mask expansion (lines 417-418): tile across the cond/uncond batch,
flatten the spatial grid into the token dimension, and broadcast across
the output channel dimension. -/
def maskExpand (couLen outC : Nat) (md : T3) : T3 :=
  let md := md.repeatBatch couLen
  ⟨md.b, md.n * md.c, outC, fun i t _ => md.data i (t / md.c) (t % md.c)⟩

/-- The slot contribution `out_ip` (lines 320-420): projected key/value
assembly per cond/uncond membership, the three weighting modes, attention,
and the optional spatial mask. -/
def slotOutIp (kk vk : String) (q : T3) (cou : List Nat)
    (batch_prompt : Nat) (ad : Option ADParams) (heads qs lh lw outC : Nat)
    (s : Slot) : T3 :=
  let kv := slotKV kk vk batch_prompt ad s
  let k_cond := kv.1
  let k_uncond := kv.2.1
  let v_cond := kv.2.2.1
  let v_uncond := kv.2.2.2
  let ipkv :=
    if strStartsWith s.weight_type "linear" then
      ((catListB (cou.map fun i => if i = 0 then k_cond else k_uncond)).scale
          s.weight,
        (catListB (cou.map fun i => if i = 0 then v_cond else v_uncond)).scale
          s.weight)
    else
      let ip_k := catListB (cou.map fun i => if i = 0 then k_cond else k_uncond)
      let ip_v := catListB (cou.map fun i => if i = 0 then v_cond else v_uncond)
      if strStartsWith s.weight_type "channel" then
        let μ : Nat → Nat → ℚ := fun i e =>
          (∑ t ∈ Finset.range ip_v.n, ip_v.data i t e) / (ip_v.n : ℚ)
        let W := s.weight * ((ip_k.c : ℚ) / 1280)
        (ip_k.scale W,
          ⟨ip_v.b, ip_v.n, ip_v.c, fun i t e =>
            (ip_v.data i t e - μ i e) + μ i e * W⟩)
      else (ip_k, ip_v)
  let out_ip := attend q ipkv.1 ipkv.2 heads
  let out_ip :=
    if strStartsWith s.weight_type "original" then out_ip.scale s.weight
    else out_ip
  match s.mask with
  | none => out_ip
  | some mask =>
    let grid := maskGrid lh lw qs
    let md := maskDownsample ad batch_prompt grid.1 grid.2 mask
    out_ip.mul (maskExpand cou.length outC md)

/-- `CrossAttentionPatch.__call__` (lines 300-424).  The final
`to(dtype=org_dtype)` cast is the identity in the exact-rational model. -/
def CrossAttentionPatch.call (p : CrossAttentionPatch)
    (n context_attn2 value_attn2 : T3) (eo : ExtraOptions) : T3 :=
  let sigma := sigmaOf eo
  let q := n
  let k := context_attn2
  let v := value_attn2
  let b := q.b
  let qs := q.n
  let batch_prompt := b / eo.cond_or_uncond.length
  let out := attend q k v eo.n_heads
  let lh := eo.original_shape.2.2.1
  let lw := eo.original_shape.2.2.2
  (zipSlots p).foldl
    (fun out s =>
      if s.sigma_start < sigma ∨ sigma < s.sigma_end then out
      else
        out.add
          (slotOutIp p.k_key p.v_key q eo.cond_or_uncond batch_prompt
            eo.ad_params eo.n_heads qs lh lw out.c s))
    out

/-- Layer keys are the tuples `("input"/"output"/"middle", id)` or
`(stage, id, transformer_index)` used in `apply_ipadapter`. -/
abbrev LayerKey := String × Nat × Option Nat

/-- The dict `transformer_options["patches_replace"]["attn2"]`, keeping
insertion order like a Python dict. -/
abbrev AttnTable := List (LayerKey × CrossAttentionPatch)

def lookupKey : AttnTable → LayerKey → Option CrossAttentionPatch
  | [], _ => none
  | (k', p) :: rest, k => if k' = k then some p else lookupKey rest k

/-- Python dict assignment `table[key] = p` for a key already present:
replace the stored patch, keep the position. -/
def storeAt : AttnTable → LayerKey → CrossAttentionPatch → AttnTable
  | [], _, _ => []
  | (k', p') :: rest, k, p =>
    if k' = k then (k', p) :: rest else (k', p') :: storeAt rest k p

/-- `model.model_options["transformer_options"]`: the outer `Option` is the
presence of the `"patches_replace"` key, the inner one the presence of
`"attn2"`. -/
structure TransformerOptions where
  patches_replace : Option (Option AttnTable)

/-- `set_model_patch_replace` (lines 91-101): create the nested dicts when
missing, then either install a fresh one-slot `CrossAttentionPatch` under
`key` or append a new slot to the existing patch. -/
def set_model_patch_replace (topts : TransformerOptions) (kw : PatchKwargs)
    (key : LayerKey) : TransformerOptions :=
  let pr : Option AttnTable :=
    match topts.patches_replace with
    | none => none
    | some a => a
  let attn2 : AttnTable :=
    match pr with
    | none => []
    | some t => t
  match lookupKey attn2 key with
  | none =>
    ⟨some (some (attn2 ++ [(key, CrossAttentionPatch.init kw)]))⟩
  | some p =>
    ⟨some (some (storeAt attn2 key (p.set_new_condition kw)))⟩

def getPatch (topts : TransformerOptions) (key : LayerKey) :
    Option CrossAttentionPatch :=
  match topts.patches_replace with
  | some (some t) => lookupKey t key
  | _ => none

/-- `torch.zeros_like`. -/
def zerosLike (x : T3) : T3 :=
  ⟨x.b, x.n, x.c, fun _ _ _ => 0⟩

/-- The faceid branch of `apply_ipadapter` (lines 523-530): `faces` is the
list of per-face normed embeddings returned by InsightFace.  When it is
empty a warning is printed (first component) and the comprehension feeds
`torch.stack` an empty list, which raises in the host; this is modelled by
`Except.error`.  Otherwise each embedding is unsqueezed to `(1, d)`,
stacked to `(len(faces), 1, d)`, and `clip_embed_zeroed` is
`torch.zeros_like(clip_embed)`. -/
def faceidEmbeds (faces : List (List ℚ)) :
    Bool × Except String (T3 × T3) :=
  let warned := faces.isEmpty
  match faces with
  | [] => (warned, Except.error "stack expects a non-empty TensorList")
  | f :: rest =>
    let emb : T3 :=
      ⟨(f :: rest).length, 1, f.length, fun i _ e =>
        ((f :: rest).getD i []).getD e 0⟩
    (warned, Except.ok (emb, zerosLike emb))

/-- `IPAdapterEncoder.preprocess` weight normalization (lines 742-750),
verbatim: each weight is multiplied by `0.1 + (weight - 0.1)` and then
floored at `1.19e-05`, except that the floored fourth weight is assigned
to the fresh variable `weight_5` while the downstream weight list
(line 769) keeps using `weight_4`.  Returns
`(weight_1, weight_2, weight_3, weight_4, weight_5)`. -/
def preprocessWeights (w1 w2 w3 w4 : ℚ) : ℚ × ℚ × ℚ × ℚ × ℚ :=
  let weight_1 := w1 * (1 / 10 + (w1 - 1 / 10))
  let weight_1 :=
    if weight_1 ≤ 119 / 10000000 then 119 / 10000000 else weight_1
  let weight_2 := w2 * (1 / 10 + (w2 - 1 / 10))
  let weight_2 :=
    if weight_2 ≤ 119 / 10000000 then 119 / 10000000 else weight_2
  let weight_3 := w3 * (1 / 10 + (w3 - 1 / 10))
  let weight_3 :=
    if weight_3 ≤ 119 / 10000000 then 119 / 10000000 else weight_3
  let weight_4 := w4 * (1 / 10 + (w4 - 1 / 10))
  let weight_5 :=
    if weight_4 ≤ 119 / 10000000 then 119 / 10000000 else weight_4
  (weight_1, weight_2, weight_3, weight_4, weight_5)

/-- Affine map (`nn.Linear` with its default bias), applied tokenwise. -/
structure AffMap where
  inDim : Nat
  outDim : Nat
  w : Nat → Nat → ℚ
  bias : Nat → ℚ

def AffMap.apply3 (L : AffMap) (x : T3) : T3 :=
  ⟨x.b, x.n, L.outDim, fun i t o =>
    (∑ j ∈ Finset.range L.inDim, L.w o j * x.data i t j) + L.bias o⟩

def AffMap.apply2 (L : AffMap) (x : T2) : T2 :=
  ⟨x.b, L.outDim, fun i o =>
    (∑ j ∈ Finset.range L.inDim, L.w o j * x.data i j) + L.bias o⟩

/-- Pointwise application of a scalar function (torch `GELU`, whose exact
transcendental values are opaque; the theorems below hold for every
pointwise nonlinearity). -/
def T3.map (f : ℚ → ℚ) (x : T3) : T3 :=
  ⟨x.b, x.n, x.c, fun i t e => f (x.data i t e)⟩

/-- Application of a row transform to every (batch, token) row (torch
`LayerNorm` over the last dimension: shape-preserving; its irrational
normalization and affine parameters are folded into the opaque row
function). -/
def T3.mapRows (f : (Nat → ℚ) → Nat → ℚ) (x : T3) : T3 :=
  ⟨x.b, x.n, x.c, fun i t => f (x.data i t)⟩

/-- Torch `tensor.reshape(-1, n, c)` on a 2-dimensional input. -/
def reshape2to3 (x : T2) (n c : Nat) : T3 :=
  ⟨x.b * x.c / (n * c), n, c, fun i t e =>
    let idx := i * (n * c) + t * c + e
    x.data (idx / x.c) (idx % x.c)⟩

/-- Torch `tensor.reshape(-1, n, c)` on a 3-dimensional input. -/
def reshape3 (x : T3) (n' c' : Nat) : T3 :=
  ⟨x.b * x.n * x.c / (n' * c'), n', c', fun i t e =>
    let idx := i * (n' * c') + t * c' + e
    x.data (idx / (x.n * x.c)) (idx % (x.n * x.c) / x.c) (idx % x.c)⟩

/-- `MLPProjModel` (lines 30-44), the dense "full" variant:
`Linear(ced, ced) → GELU → Linear(ced, cad) → LayerNorm(cad)`.  It
contains no reshape, so the token dimension of the input is preserved. -/
structure MLPProjModel where
  cross_attention_dim : Nat
  clip_embeddings_dim : Nat
  lin1 : AffMap
  lin2 : AffMap

def mkMLPProjModel (cad ced : Nat) (w1 w2 : Nat → Nat → ℚ)
    (b1 b2 : Nat → ℚ) : MLPProjModel :=
  ⟨cad, ced, ⟨ced, ced, w1, b1⟩, ⟨ced, cad, w2, b2⟩⟩

def MLPProjModel.forward (g : ℚ → ℚ) (ln : (Nat → ℚ) → Nat → ℚ)
    (m : MLPProjModel) (x : T3) : T3 :=
  ((m.lin2.apply3 ((m.lin1.apply3 x).map g)).mapRows ln)

/-- `MLPProjModelFaceId` (lines 46-65):
`Linear(idd, idd*2) → GELU → Linear(idd*2, cad*num_tokens)`, reshaped to
`(-1, num_tokens, cad)` and layer-normalized. -/
structure MLPProjModelFaceId where
  cross_attention_dim : Nat
  num_tokens : Nat
  lin1 : AffMap
  lin2 : AffMap

def mkMLPProjModelFaceId (cad idd tok : Nat) (w1 w2 : Nat → Nat → ℚ)
    (b1 b2 : Nat → ℚ) : MLPProjModelFaceId :=
  ⟨cad, tok, ⟨idd, idd * 2, w1, b1⟩, ⟨idd * 2, cad * tok, w2, b2⟩⟩

def MLPProjModelFaceId.forward (g : ℚ → ℚ) (ln : (Nat → ℚ) → Nat → ℚ)
    (m : MLPProjModelFaceId) (x : T3) : T3 :=
  (reshape3 (m.lin2.apply3 ((m.lin1.apply3 x).map g)) m.num_tokens
      m.cross_attention_dim).mapRows ln

/-- `ImageProjModel` (lines 67-80), the linear variant:
`Linear(ced, tok*cad)` on a pooled 2-dimensional embedding, reshaped to
`(-1, tok, cad)` and layer-normalized. -/
structure ImageProjModel where
  cross_attention_dim : Nat
  clip_extra_context_tokens : Nat
  proj : AffMap

def mkImageProjModel (cad ced tok : Nat) (w : Nat → Nat → ℚ)
    (bias : Nat → ℚ) : ImageProjModel :=
  ⟨cad, tok, ⟨ced, tok * cad, w, bias⟩⟩

def ImageProjModel.forward (ln : (Nat → ℚ) → Nat → ℚ)
    (m : ImageProjModel) (x : T2) : T3 :=
  (reshape2to3 (m.proj.apply2 x) m.clip_extra_context_tokens
      m.cross_attention_dim).mapRows ln

/-- Modelled from the spec: the `Resampler` lives in `resampler.py`, which
is not under `src/`; per the spec it "attends from a fixed-size learned
query set into the raw embedding sequence, producing `num_queries` tokens"
of width `output_dim`.  The internal cross-attention stack is opaque and
is modelled by the data parameter `f`; the output shape is
`(batch, num_queries, output_dim)` as the spec states. -/
structure Resampler where
  num_queries : Nat
  output_dim : Nat
  f : T3 → Nat → Nat → Nat → ℚ

def Resampler.forward (r : Resampler) (x : T3) : T3 :=
  ⟨x.b, r.num_queries, r.output_dim, r.f x⟩

/-- Line 516: `clip_extra_context_tokens = 16 if is_plus else 4`. -/
def clipExtraContextTokens (is_plus : Bool) : Nat :=
  if is_plus then 16 else 4

/-- The parallel-slot-lists invariant of §3 of the spec: all nine per-slot
lists of a `CrossAttentionPatch` have the same length. -/
def slotsAligned (p : CrossAttentionPatch) : Prop :=
  p.ip_layers.length = p.weights.length ∧
  p.conds.length = p.weights.length ∧
  p.unconds.length = p.weights.length ∧
  p.masks.length = p.weights.length ∧
  p.weight_type.length = p.weights.length ∧
  p.sigma_start.length = p.weights.length ∧
  p.sigma_end.length = p.weights.length ∧
  p.unfold_batch.length = p.weights.length

/-- Claim C6: after `__init__` and after every `set_new_condition` call the
nine per-slot parallel lists (weights, ip_layers, conds, unconds, masks,
weight types, sigma bounds, unfold flags) all have equal length, so one
index denotes one complete slot. -/
theorem spec_C6_parallel_lists :
    (∀ kw, slotsAligned (CrossAttentionPatch.init kw)) ∧
    ∀ p kw, slotsAligned p → slotsAligned (p.set_new_condition kw) := by
  constructor
  · intro kw
    simp [slotsAligned, CrossAttentionPatch.init]
  · intro p kw h
    obtain ⟨h1, h2, h3, h4, h5, h6, h7, h8⟩ := h
    simp [slotsAligned, CrossAttentionPatch.set_new_condition, h1, h2, h3,
      h4, h5, h6, h7, h8]

/-- A fixed concrete `patch_kwargs` record used by witnesses. -/
def kwA : PatchKwargs :=
  ⟨0, ⟨fun _ => ⟨1, 1, fun _ _ => 1⟩⟩, 0, ⟨1, 1, 1, fun _ _ _ => 1⟩,
    ⟨1, 1, 1, fun _ _ _ => 0⟩, "original", none, 0, 1, false⟩

/-- A second fixed concrete `patch_kwargs` record used by witnesses. -/
def kwB : PatchKwargs :=
  ⟨1, ⟨fun _ => ⟨1, 1, fun _ _ => 2⟩⟩, 3, ⟨1, 2, 1, fun _ _ _ => 2⟩,
    ⟨1, 2, 1, fun _ _ _ => 0⟩, "linear", none, 1, 0, true⟩

theorem spec_C6_parallel_lists_witness :
    slotsAligned
      ((CrossAttentionPatch.init kwA).set_new_condition kwB) :=
  spec_C6_parallel_lists.2 _ _ (spec_C6_parallel_lists.1 kwA)

/-- Claim C8 counterexample: `weight *= 0.1 + (weight - 0.1)` does not
leave the weight unchanged (at `w = 1/2` it yields `1/4`), and the fourth
weight as returned can be exactly `0` because its clamp result is stored
in the dead variable `weight_5`. -/
theorem spec_C8_counterexample :
    (preprocessWeights (1 / 2) 1 1 (1 / 2)).1 = 1 / 4 ∧
    ¬(preprocessWeights (1 / 2) 1 1 (1 / 2)).1 = 1 / 2 ∧
    (preprocessWeights 1 1 1 0).2.2.2.1 = 0 := by
  refine ⟨?_, ?_, ?_⟩ <;> norm_num [preprocessWeights]

/-- Claim C8 (amended): the normalization formula multiplies each weight
by itself (`w * (0.1 + (w - 0.1)) = w²`), so it changes the value except
at the fixed points; weights 1-3 are then floored at `1.19e-05`, and the
floored fourth weight lands in `weight_5` while `weight_4` stays the
unclamped square. -/
theorem spec_C8_amended (w1 w2 w3 w4 : ℚ) :
    preprocessWeights w1 w2 w3 w4 =
      (if w1 * w1 ≤ 119 / 10000000 then 119 / 10000000 else w1 * w1,
        if w2 * w2 ≤ 119 / 10000000 then 119 / 10000000 else w2 * w2,
        if w3 * w3 ≤ 119 / 10000000 then 119 / 10000000 else w3 * w3,
        w4 * w4,
        if w4 * w4 ≤ 119 / 10000000 then 119 / 10000000 else w4 * w4) ∧
    119 / 10000000 ≤ (preprocessWeights w1 w2 w3 w4).1 ∧
    119 / 10000000 ≤ (preprocessWeights w1 w2 w3 w4).2.1 ∧
    119 / 10000000 ≤ (preprocessWeights w1 w2 w3 w4).2.2.1 ∧
    119 / 10000000 ≤ (preprocessWeights w1 w2 w3 w4).2.2.2.2 := by
  have hsq : ∀ w : ℚ, w * (1 / 10 + (w - 1 / 10)) = w * w := by
    intro w
    ring
  refine ⟨?_, ?_, ?_, ?_, ?_⟩ <;>
    simp only [preprocessWeights, hsq] <;>
    split_ifs <;>
    first
      | rfl
      | linarith

/-- Claim C7 counterexample: with no detected face the warning fires but
the subsequent `torch.stack` over the empty comprehension raises, so there
is no zeroed-embedding fallback and processing aborts. -/
theorem spec_C7_counterexample :
    (faceidEmbeds []).1 = true ∧
    (faceidEmbeds []).2 =
      Except.error "stack expects a non-empty TensorList" := by
  exact ⟨rfl, rfl⟩

/-- Claim C7 (amended): on an empty face list a warning is reported and
the empty stack aborts with an error (no fallback); on a non-empty list
the stacked embedding is returned together with `zeros_like` of it as the
unconditional counterpart. -/
theorem spec_C7_amended (faces : List (List ℚ)) :
    ((faceidEmbeds faces).1 = faces.isEmpty) ∧
    (faces = [] →
      (faceidEmbeds faces).2 =
        Except.error "stack expects a non-empty TensorList") ∧
    (faces ≠ [] →
      ∃ emb, (faceidEmbeds faces).2 = Except.ok (emb, zerosLike emb) ∧
        ∀ i t e, (zerosLike emb).data i t e = 0) := by
  refine ⟨?_, ?_, ?_⟩
  · cases faces <;> rfl
  · intro h
    subst h
    rfl
  · intro h
    match faces with
    | [] => exact absurd rfl h
    | f :: rest =>
      refine ⟨_, rfl, ?_⟩
      intro i t e
      rfl

theorem spec_C7_amended_witness :
    ∃ emb, (faceidEmbeds [[1]]).2 = Except.ok (emb, zerosLike emb) ∧
      ∀ i t e, (zerosLike emb).data i t e = 0 :=
  (spec_C7_amended [[1]]).2.2 (by simp)

theorem lookupKey_append_of_none (l : AttnTable) (key : LayerKey)
    (p : CrossAttentionPatch) (h : lookupKey l key = none) :
    lookupKey (l ++ [(key, p)]) key = some p := by
  induction l with
  | nil => simp [lookupKey]
  | cons e rest ih =>
    obtain ⟨k', q⟩ := e
    by_cases hk : k' = key
    · simp [lookupKey, hk] at h
    · simp only [lookupKey, hk, if_false, List.cons_append] at h ⊢
      exact ih h

theorem lookupKey_storeAt (l : AttnTable) (key : LayerKey)
    (p q : CrossAttentionPatch) (h : lookupKey l key = some p) :
    lookupKey (storeAt l key q) key = some q := by
  induction l with
  | nil => simp [lookupKey] at h
  | cons e rest ih =>
    obtain ⟨k', r⟩ := e
    by_cases hk : k' = key
    · simp [lookupKey, storeAt, hk]
    · simp only [lookupKey, storeAt, hk, if_false] at h ⊢
      exact ih h

theorem getPatch_set_of_none (topts : TransformerOptions) (kw : PatchKwargs)
    (key : LayerKey) (h : getPatch topts key = none) :
    getPatch (set_model_patch_replace topts kw key) key =
      some (CrossAttentionPatch.init kw) := by
  obtain ⟨pr⟩ := topts
  match pr with
  | none =>
    simp [set_model_patch_replace, getPatch, lookupKey]
  | some none =>
    simp [set_model_patch_replace, getPatch, lookupKey]
  | some (some t) =>
    simp only [getPatch] at h
    simp only [set_model_patch_replace, h, getPatch]
    exact lookupKey_append_of_none t key _ h

theorem getPatch_set_of_some (topts : TransformerOptions) (kw : PatchKwargs)
    (key : LayerKey) (p : CrossAttentionPatch)
    (h : getPatch topts key = some p) :
    getPatch (set_model_patch_replace topts kw key) key =
      some (p.set_new_condition kw) := by
  obtain ⟨pr⟩ := topts
  match pr with
  | none => simp [getPatch] at h
  | some none => simp [getPatch] at h
  | some (some t) =>
    simp only [getPatch] at h
    simp only [set_model_patch_replace, h, getPatch]
    exact lookupKey_storeAt t key p _ h

/-- The model table before any patch is installed:
`transformer_options` without a `"patches_replace"` entry. -/
def emptyOptions : TransformerOptions := ⟨none⟩

theorem getPatch_foldl (key : LayerKey) (kws : List PatchKwargs) :
    ∀ (topts : TransformerOptions) (p : CrossAttentionPatch),
    getPatch topts key = some p →
    getPatch
        (kws.foldl (fun t kw => set_model_patch_replace t kw key) topts)
        key =
      some (kws.foldl CrossAttentionPatch.set_new_condition p) := by
  induction kws with
  | nil =>
    intro topts p h
    exact h
  | cons kw rest ih =>
    intro topts p h
    exact ih _ _ (getPatch_set_of_some topts kw key p h)

theorem foldl_set_new_condition_weights (kws : List PatchKwargs) :
    ∀ p : CrossAttentionPatch,
    (kws.foldl CrossAttentionPatch.set_new_condition p).weights =
        p.weights ++ kws.map PatchKwargs.weight ∧
      (kws.foldl CrossAttentionPatch.set_new_condition p).conds =
        p.conds ++ kws.map PatchKwargs.cond := by
  induction kws with
  | nil =>
    intro p
    simp
  | cons kw rest ih =>
    intro p
    obtain ⟨hw, hc⟩ := ih (p.set_new_condition kw)
    constructor
    · rw [List.foldl_cons, hw]
      simp [CrossAttentionPatch.set_new_condition]
    · rw [List.foldl_cons, hc]
      simp [CrossAttentionPatch.set_new_condition]

/-- Claim C5: `set_model_patch_replace` installs a fresh one-slot patch
when the layer key is free, appends one slot to the existing patch when it
is taken (never replacing or removing slots), and applying N kwargs to the
same key therefore yields a patch whose N slots appear in application
order. -/
theorem spec_C5_registry :
    (∀ topts kw key, getPatch topts key = none →
      getPatch (set_model_patch_replace topts kw key) key =
          some (CrossAttentionPatch.init kw) ∧
        (CrossAttentionPatch.init kw).weights.length = 1 ∧
        (CrossAttentionPatch.init kw).conds = [kw.cond]) ∧
    (∀ topts kw key p, getPatch topts key = some p →
      getPatch (set_model_patch_replace topts kw key) key =
          some (p.set_new_condition kw) ∧
        (p.set_new_condition kw).weights = p.weights ++ [kw.weight] ∧
        (p.set_new_condition kw).conds = p.conds ++ [kw.cond]) ∧
    (∀ (key : LayerKey) (kws : List PatchKwargs)
        (p : CrossAttentionPatch),
      getPatch
          (kws.foldl (fun t kw => set_model_patch_replace t kw key)
            emptyOptions) key = some p →
      p.weights = kws.map PatchKwargs.weight ∧
        p.conds = kws.map PatchKwargs.cond ∧
        p.weights.length = kws.length) := by
  refine ⟨?_, ?_, ?_⟩
  · intro topts kw key h
    exact ⟨getPatch_set_of_none topts kw key h, rfl, rfl⟩
  · intro topts kw key p h
    refine ⟨getPatch_set_of_some topts kw key p h, ?_, ?_⟩ <;>
      simp [CrossAttentionPatch.set_new_condition]
  · intro key kws p h
    match kws with
    | [] =>
      simp [emptyOptions, getPatch] at h
    | kw0 :: rest =>
      have h0 : getPatch emptyOptions key = none := rfl
      have h1 :=
        getPatch_set_of_none emptyOptions kw0 key h0
      have h2 := getPatch_foldl key rest _ _ h1
      rw [List.foldl_cons] at h
      rw [h] at h2
      obtain ⟨hw, hc⟩ :=
        foldl_set_new_condition_weights rest (CrossAttentionPatch.init kw0)
      have hp : p = rest.foldl CrossAttentionPatch.set_new_condition
          (CrossAttentionPatch.init kw0) := by
        exact Option.some.inj h2
      subst hp
      rw [hw, hc]
      refine ⟨?_, ?_, ?_⟩
      · simp [CrossAttentionPatch.init]
      · simp [CrossAttentionPatch.init]
      · simp [CrossAttentionPatch.init]

theorem spec_C5_registry_witness :
    getPatch (set_model_patch_replace emptyOptions kwA ("input", 1, none))
        ("input", 1, none) =
      some (CrossAttentionPatch.init kwA) :=
  (spec_C5_registry.1 emptyOptions kwA ("input", 1, none) rfl).1

/-- Claim C9 counterexample: the dense-MLP variant (`MLPProjModel`)
contains no reshape, so its output token count equals the input's token
count (257 for a typical penultimate hidden state, 3 for a length-3
input), not the fixed 16 the claim asserts. -/
theorem spec_C9_counterexample :
    (MLPProjModel.forward (fun x => x) (fun row => row)
        (mkMLPProjModel 1 1 (fun _ _ => 1) (fun _ _ => 1) (fun _ => 0)
          (fun _ => 0))
        ⟨1, 257, 1, fun _ _ _ => 0⟩).n = 257 ∧
    (MLPProjModel.forward (fun x => x) (fun row => row)
        (mkMLPProjModel 1 1 (fun _ _ => 1) (fun _ _ => 1) (fun _ => 0)
          (fun _ => 0))
        ⟨1, 3, 1, fun _ _ _ => 0⟩).n = 3 ∧
    ¬(257 = 16) := by
  refine ⟨rfl, rfl, by decide⟩

/-- Claim C9 (amended): projection outputs have shape
`(batch, num_tokens, cross_attention_dim)` with `num_tokens = 4` for the
linear (`ImageProjModel`) and face (`MLPProjModelFaceId`) variants and
`num_tokens = 16` for the resampler, while the dense-MLP variant
(`MLPProjModel`) preserves the input's token count instead of producing a
fixed 16 tokens. -/
theorem spec_C9_amended :
    (∀ (ln : (Nat → ℚ) → Nat → ℚ) (cad ced : Nat) (w : Nat → Nat → ℚ)
        (bias : Nat → ℚ) (x : T2), 0 < cad →
      (ImageProjModel.forward ln
          (mkImageProjModel cad ced (clipExtraContextTokens false) w bias)
          x).b = x.b ∧
      (ImageProjModel.forward ln
          (mkImageProjModel cad ced (clipExtraContextTokens false) w bias)
          x).n = 4 ∧
      (ImageProjModel.forward ln
          (mkImageProjModel cad ced (clipExtraContextTokens false) w bias)
          x).c = cad) ∧
    (∀ (g : ℚ → ℚ) (ln : (Nat → ℚ) → Nat → ℚ) (cad idd : Nat)
        (w1 w2 : Nat → Nat → ℚ) (b1 b2 : Nat → ℚ) (x : T3),
      0 < cad → x.n = 1 →
      (MLPProjModelFaceId.forward g ln
          (mkMLPProjModelFaceId cad idd (clipExtraContextTokens false) w1
            w2 b1 b2) x).b = x.b ∧
      (MLPProjModelFaceId.forward g ln
          (mkMLPProjModelFaceId cad idd (clipExtraContextTokens false) w1
            w2 b1 b2) x).n = 4 ∧
      (MLPProjModelFaceId.forward g ln
          (mkMLPProjModelFaceId cad idd (clipExtraContextTokens false) w1
            w2 b1 b2) x).c = cad) ∧
    (∀ (f : T3 → Nat → Nat → Nat → ℚ) (od : Nat) (x : T3),
      (Resampler.forward ⟨clipExtraContextTokens true, od, f⟩ x).b = x.b ∧
      (Resampler.forward ⟨clipExtraContextTokens true, od, f⟩ x).n = 16 ∧
      (Resampler.forward ⟨clipExtraContextTokens true, od, f⟩ x).c = od) ∧
    (∀ (g : ℚ → ℚ) (ln : (Nat → ℚ) → Nat → ℚ) (cad ced : Nat)
        (w1 w2 : Nat → Nat → ℚ) (b1 b2 : Nat → ℚ) (x : T3),
      (MLPProjModel.forward g ln (mkMLPProjModel cad ced w1 w2 b1 b2)
          x).b = x.b ∧
      (MLPProjModel.forward g ln (mkMLPProjModel cad ced w1 w2 b1 b2)
          x).n = x.n ∧
      (MLPProjModel.forward g ln (mkMLPProjModel cad ced w1 w2 b1 b2)
          x).c = cad) := by
  refine ⟨?_, ?_, ?_, ?_⟩
  · intro ln cad ced w bias x hcad
    refine ⟨?_, rfl, rfl⟩
    show x.b * (4 * cad) / (4 * cad) = x.b
    exact Nat.mul_div_cancel x.b (by omega)
  · intro g ln cad idd w1 w2 b1 b2 x hcad hn
    refine ⟨?_, rfl, rfl⟩
    show x.b * x.n * (cad * 4) / (4 * cad) = x.b
    rw [hn, Nat.mul_one, Nat.mul_comm cad 4]
    exact Nat.mul_div_cancel x.b (by omega)
  · intro f od x
    exact ⟨rfl, rfl, rfl⟩
  · intro g ln cad ced w1 w2 b1 b2 x
    exact ⟨rfl, rfl, rfl⟩

theorem spec_C9_amended_witness :
    (ImageProjModel.forward (fun row => row)
        (mkImageProjModel 1 1 (clipExtraContextTokens false)
          (fun _ _ => 0) (fun _ => 0))
        ⟨2, 1, fun _ _ => 0⟩).b = 2 ∧
    (ImageProjModel.forward (fun row => row)
        (mkImageProjModel 1 1 (clipExtraContextTokens false)
          (fun _ _ => 0) (fun _ => 0))
        ⟨2, 1, fun _ _ => 0⟩).n = 4 ∧
    (ImageProjModel.forward (fun row => row)
        (mkImageProjModel 1 1 (clipExtraContextTokens false)
          (fun _ _ => 0) (fun _ => 0))
        ⟨2, 1, fun _ _ => 0⟩).c = 1 :=
  spec_C9_amended.1 (fun row => row) 1 1 (fun _ _ => 0) (fun _ => 0)
    ⟨2, 1, fun _ _ => 0⟩ (by decide)

theorem gate_foldl (kk vk : String) (q : T3) (cou : List Nat) (bp : Nat)
    (ad : Option ADParams) (heads qs lh lw : Nat) (sg : ℚ) :
    ∀ (l : List Slot) (a : T3),
    l.foldl (fun out s =>
        if s.sigma_start < sg ∨ sg < s.sigma_end then out
        else out.add (slotOutIp kk vk q cou bp ad heads qs lh lw out.c s))
      a =
    (l.filter fun s =>
        decide (s.sigma_end ≤ sg ∧ sg ≤ s.sigma_start)).foldl
      (fun out s =>
        out.add (slotOutIp kk vk q cou bp ad heads qs lh lw out.c s)) a := by
  intro l
  induction l with
  | nil =>
    intro a
    rfl
  | cons s rest ih =>
    intro a
    by_cases h : s.sigma_start < sg ∨ sg < s.sigma_end
    · have hf : decide (s.sigma_end ≤ sg ∧ sg ≤ s.sigma_start) = false := by
        simp only [decide_eq_false_iff_not, not_and_or, not_le]
        rcases h with h | h
        · exact Or.inr h
        · exact Or.inl h
      rw [List.foldl_cons, if_pos h, List.filter_cons, hf]
      simp only [Bool.false_eq_true, if_false]
      exact ih a
    · have ht : decide (s.sigma_end ≤ sg ∧ sg ≤ s.sigma_start) = true := by
        simp only [decide_eq_true_eq]
        push_neg at h
        exact ⟨h.2, h.1⟩
      rw [List.foldl_cons, if_neg h, List.filter_cons, ht]
      simp only [if_true]
      rw [List.foldl_cons]
      exact ih _

/-- Claim C1: the schedule gate is an exact filter.  `__call__` equals the
base attention plus the sum, in registration order, of exactly those slot
contributions whose noise level lies in the inclusive window
`[sigma_end, sigma_start]`; a slot outside its window contributes exactly
zero (it is skipped, never an error) and a slot inside has its
contribution added. -/
theorem spec_C1_schedule_gate (p : CrossAttentionPatch) (n k v : T3)
    (eo : ExtraOptions) :
    p.call n k v eo =
      ((zipSlots p).filter fun s =>
          decide (s.sigma_end ≤ sigmaOf eo ∧
            sigmaOf eo ≤ s.sigma_start)).foldl
        (fun out s =>
          out.add (slotOutIp p.k_key p.v_key n eo.cond_or_uncond
            (n.b / eo.cond_or_uncond.length) eo.ad_params eo.n_heads n.n
            eo.original_shape.2.2.1 eo.original_shape.2.2.2 out.c s))
        (attend n k v eo.n_heads) :=
  gate_foldl p.k_key p.v_key n eo.cond_or_uncond
    (n.b / eo.cond_or_uncond.length) eo.ad_params eo.n_heads n.n
    eo.original_shape.2.2.1 eo.original_shape.2.2.2 (sigmaOf eo)
    (zipSlots p) (attend n k v eo.n_heads)

theorem foldl_skip_all (kk vk : String) (q : T3) (cou : List Nat) (bp : Nat)
    (ad : Option ADParams) (heads qs lh lw : Nat) (sg : ℚ) :
    ∀ (l : List Slot) (a : T3),
    (∀ s ∈ l, s.sigma_start < sg ∨ sg < s.sigma_end) →
    l.foldl (fun out s =>
        if s.sigma_start < sg ∨ sg < s.sigma_end then out
        else out.add (slotOutIp kk vk q cou bp ad heads qs lh lw out.c s))
      a = a := by
  intro l
  induction l with
  | nil =>
    intro a _
    rfl
  | cons s rest ih =>
    intro a hall
    rw [List.foldl_cons, if_pos (hall s (List.mem_cons_self s rest))]
    exact ih a fun x hx => hall x (List.mem_cons_of_mem s hx)

/-- Claim C10: when `extra_options` has no `"sigmas"` key, `__call__` uses
the sentinel noise level `999999999.9`, so every slot whose `sigma_start`
is below the sentinel is skipped and the patch returns exactly the base
attention output. -/
theorem spec_C10_sentinel (p : CrossAttentionPatch) (n k v : T3)
    (eo : ExtraOptions) (hs : eo.sigmas = none)
    (hstart : ∀ s ∈ zipSlots p, s.sigma_start < 9999999999 / 10) :
    p.call n k v eo = attend n k v eo.n_heads := by
  have hsg : sigmaOf eo = 9999999999 / 10 := by
    simp [sigmaOf, hs]
  exact foldl_skip_all p.k_key p.v_key n eo.cond_or_uncond
    (n.b / eo.cond_or_uncond.length) eo.ad_params eo.n_heads n.n
    eo.original_shape.2.2.1 eo.original_shape.2.2.2 (sigmaOf eo)
    (zipSlots p) (attend n k v eo.n_heads)
    fun s hmem => Or.inl (hsg.symm ▸ hstart s hmem)

theorem spec_C10_sentinel_witness :
    (CrossAttentionPatch.init kwA).call ⟨1, 1, 1, fun _ _ _ => 1⟩
        ⟨1, 1, 1, fun _ _ _ => 1⟩ ⟨1, 1, 1, fun _ _ _ => 1⟩
        ⟨[0], none, none, 1, (1, 1, 1, 1)⟩ =
      attend ⟨1, 1, 1, fun _ _ _ => 1⟩ ⟨1, 1, 1, fun _ _ _ => 1⟩
        ⟨1, 1, 1, fun _ _ _ => 1⟩ 1 := by
  refine spec_C10_sentinel _ _ _ _ _ rfl ?_
  intro s hmem
  have hz : zipSlots (CrossAttentionPatch.init kwA) =
      [⟨kwA.weight, kwA.cond, kwA.uncond, kwA.ip_layers, kwA.mask,
        kwA.weight_type, kwA.sigma_start, kwA.sigma_end,
        kwA.unfold_batch⟩] := rfl
  rw [hz, List.mem_singleton] at hmem
  subst hmem
  norm_num [kwA]

/-- Claim C3: batch realignment.  With conditioning batch 1, per-prompt
diffusion batch 4 and unfold disabled, the projected conditioning
key/value tensors consist of the single row repeated 4 times; in the
unfold path with conditioning batch 6 against target 4 the last two rows
are dropped (truncation to the first 4); with conditioning batch 2
against target 4, rows 2 and 3 are filled by repeating the last
conditioning row (index 1). -/
theorem spec_C3_batch_realign (kk vk : String) (ad : Option ADParams)
    (s : Slot) (c6 c2 : T3) :
    (s.unfold_batch = false → s.cond.b = 1 →
      (slotKV kk vk 4 ad s).1.b = 4 ∧
      (∀ i t e, (slotKV kk vk 4 ad s).1.data i t e =
        (slotKV kk vk 4 ad s).1.data 0 t e) ∧
      (slotKV kk vk 4 ad s).2.2.1.b = 4 ∧
      (∀ i t e, (slotKV kk vk 4 ad s).2.2.1.data i t e =
        (slotKV kk vk 4 ad s).2.2.1.data 0 t e)) ∧
    (c6.b = 6 →
      (unfoldAlign none 4 c6).b = 4 ∧
      ∀ i t e, i < 4 → (unfoldAlign none 4 c6).data i t e = c6.data i t e) ∧
    (c2.b = 2 →
      (unfoldAlign none 4 c2).b = 4 ∧
      (∀ i t e, i < 2 →
        (unfoldAlign none 4 c2).data i t e = c2.data i t e) ∧
      (∀ t e, (unfoldAlign none 4 c2).data 2 t e = c2.data 1 t e ∧
        (unfoldAlign none 4 c2).data 3 t e = c2.data 1 t e)) := by
  refine ⟨?_, ?_, ?_⟩
  · intro huf hb
    have hcond : (s.unfold_batch && decide (1 < s.cond.b)) = false := by
      rw [huf, Bool.false_and]
    have hkv : slotKV kk vk 4 ad s =
        (((s.ip_layers.to_kvs kk).apply s.cond).repeatBatch 4,
          ((s.ip_layers.to_kvs kk).apply s.uncond).repeatBatch 4,
          ((s.ip_layers.to_kvs vk).apply s.cond).repeatBatch 4,
          ((s.ip_layers.to_kvs vk).apply s.uncond).repeatBatch 4) := by
      simp [slotKV, hcond]
    rw [hkv]
    refine ⟨?_, ?_, ?_, ?_⟩
    · show 4 * s.cond.b = 4
      rw [hb]
    · intro i t e
      show ((s.ip_layers.to_kvs kk).apply s.cond).data (i % s.cond.b) t e =
        ((s.ip_layers.to_kvs kk).apply s.cond).data (0 % s.cond.b) t e
      rw [hb, Nat.mod_one, Nat.mod_one]
    · show 4 * s.cond.b = 4
      rw [hb]
    · intro i t e
      show ((s.ip_layers.to_kvs vk).apply s.cond).data (i % s.cond.b) t e =
        ((s.ip_layers.to_kvs vk).apply s.cond).data (0 % s.cond.b) t e
      rw [hb, Nat.mod_one, Nat.mod_one]
  · intro h6
    have hal : unfoldAlign none 4 c6 = c6.takeB 4 := by
      simp [unfoldAlign, h6]
    rw [hal]
    refine ⟨?_, ?_⟩
    · show min 4 c6.b = 4
      rw [h6]
      rfl
    · intro i t e _
      rfl
  · intro h2
    have hal : unfoldAlign none 4 c2 =
        c2.catB (c2.lastRow.repeatBatch (4 - c2.b)) := by
      simp [unfoldAlign, h2]
    rw [hal]
    refine ⟨?_, ?_, ?_⟩
    · show c2.b + (4 - c2.b) * 1 = 4
      rw [h2]
    · intro i t e hi
      show (if i < c2.b then _ else _) = c2.data i t e
      rw [if_pos (by omega)]
    · intro t e
      constructor
      · show (if 2 < c2.b then _ else _) = c2.data 1 t e
        rw [if_neg (by omega)]
        show c2.lastRow.data ((2 - c2.b) % c2.lastRow.b) t e = c2.data 1 t e
        show c2.data (c2.b - 1) t e = c2.data 1 t e
        rw [h2]
      · show (if 3 < c2.b then _ else _) = c2.data 1 t e
        rw [if_neg (by omega)]
        show c2.lastRow.data ((3 - c2.b) % c2.lastRow.b) t e = c2.data 1 t e
        show c2.data (c2.b - 1) t e = c2.data 1 t e
        rw [h2]

/-- A concrete non-unfolding slot with conditioning batch 1, used by the
realignment witness. -/
def slotC3 : Slot :=
  ⟨1, ⟨1, 1, 1, fun _ _ _ => 5⟩, ⟨1, 1, 1, fun _ _ _ => 0⟩,
    ⟨fun _ => ⟨1, 1, fun _ _ => 1⟩⟩, none, "original", 0, 1, false⟩

/-- A concrete batch-6 conditioning tensor. -/
def c6T : T3 := ⟨6, 1, 1, fun i _ _ => i⟩

/-- A concrete batch-2 conditioning tensor. -/
def c2T : T3 := ⟨2, 1, 1, fun i _ _ => i⟩

theorem spec_C3_batch_realign_witness :
    ((slotKV "1_to_k_ip" "1_to_v_ip" 4 none slotC3).1.b = 4 ∧
      (∀ i t e, (slotKV "1_to_k_ip" "1_to_v_ip" 4 none slotC3).1.data i t e =
        (slotKV "1_to_k_ip" "1_to_v_ip" 4 none slotC3).1.data 0 t e) ∧
      (slotKV "1_to_k_ip" "1_to_v_ip" 4 none slotC3).2.2.1.b = 4 ∧
      (∀ i t e,
        (slotKV "1_to_k_ip" "1_to_v_ip" 4 none slotC3).2.2.1.data i t e =
        (slotKV "1_to_k_ip" "1_to_v_ip" 4 none slotC3).2.2.1.data 0 t e)) ∧
    ((unfoldAlign none 4 c6T).b = 4 ∧
      ∀ i t e, i < 4 → (unfoldAlign none 4 c6T).data i t e = c6T.data i t e) ∧
    ((unfoldAlign none 4 c2T).b = 4 ∧
      (∀ i t e, i < 2 →
        (unfoldAlign none 4 c2T).data i t e = c2T.data i t e) ∧
      (∀ t e, (unfoldAlign none 4 c2T).data 2 t e = c2T.data 1 t e ∧
        (unfoldAlign none 4 c2T).data 3 t e = c2T.data 1 t e)) :=
  ⟨(spec_C3_batch_realign "1_to_k_ip" "1_to_v_ip" none slotC3 c6T c2T).1
      rfl rfl,
    (spec_C3_batch_realign "1_to_k_ip" "1_to_v_ip" none slotC3 c6T c2T).2.1
      rfl,
    (spec_C3_batch_realign "1_to_k_ip" "1_to_v_ip" none slotC3 c6T c2T).2.2
      rfl⟩

theorem T3.scale_one (x : T3) : x.scale 1 = x := by
  refine T3.eqOf rfl rfl rfl ?_
  funext i t e
  simp [T3.scale]

theorem slotKV_k_cond_c (kk vk : String) (bp : Nat) (ad : Option ADParams)
    (s : Slot) :
    (slotKV kk vk bp ad s).1.c = (s.ip_layers.to_kvs kk).outDim := by
  by_cases h : (s.unfold_batch && decide (1 < s.cond.b)) = true <;>
    simp [slotKV, h, LinMap.apply, T3.repeatBatch]

theorem slotKV_k_uncond_c (kk vk : String) (bp : Nat) (ad : Option ADParams)
    (s : Slot) :
    (slotKV kk vk bp ad s).2.1.c = (s.ip_layers.to_kvs kk).outDim := by
  by_cases h : (s.unfold_batch && decide (1 < s.cond.b)) = true <;>
    simp [slotKV, h, LinMap.apply, T3.repeatBatch]


theorem channel_branch_eq (q K V : T3) (heads : Nat) (hc : K.c = 1280) :
    attend q (K.scale (1 * ((K.c : ℚ) / 1280)))
      ⟨V.b, V.n, V.c, fun i t e =>
        (V.data i t e -
            (∑ u ∈ Finset.range V.n, V.data i u e) / (V.n : ℚ)) +
          (∑ u ∈ Finset.range V.n, V.data i u e) / (V.n : ℚ) *
            (1 * ((K.c : ℚ) / 1280))⟩
      heads =
    (attend q K V heads).scale 1 := by
  have hW : (1 : ℚ) * (((1280 : ℕ) : ℚ) / 1280) = 1 := by norm_num
  simp only [hc, hW, T3.scale_one]
  congr 1
  refine T3.eqOf rfl rfl rfl ?_
  funext i t e
  ring

/-- Claim C4: with weighting mode `"channel penalty"`, `weight = 1` and a
key projection of width 1280, the channel penalty factor is exactly 1, so
`ip_k` and `ip_v` are unchanged (`ip_v_offset + ip_v_mean * 1 = ip_v`) and
the slot contribution equals the plain `"original"` mode contribution at
weight 1. -/
theorem spec_C4_channel_identity (kk vk : String) (q : T3) (cou : List Nat)
    (bp : Nat) (ad : Option ADParams) (heads qs lh lw outC : Nat) (s : Slot)
    (hwt : s.weight_type = "channel penalty") (hw : s.weight = 1)
    (hdim : (s.ip_layers.to_kvs kk).outDim = 1280) (hcou : cou ≠ []) :
    slotOutIp kk vk q cou bp ad heads qs lh lw outC s =
      slotOutIp kk vk q cou bp ad heads qs lh lw outC
        ⟨s.weight, s.cond, s.uncond, s.ip_layers, s.mask, "original",
          s.sigma_start, s.sigma_end, s.unfold_batch⟩ := by
  obtain ⟨w, cond, uncond, ipl, mask, wt, ss, se, ub⟩ := s
  simp only at hwt hw hdim ⊢
  subst hwt
  subst hw
  have hL : strStartsWith "channel penalty" "linear" = false := rfl
  have hC : strStartsWith "channel penalty" "channel" = true := rfl
  have hO : strStartsWith "channel penalty" "original" = false := rfl
  have hL2 : strStartsWith "original" "linear" = false := rfl
  have hC2 : strStartsWith "original" "channel" = false := rfl
  have hO2 : strStartsWith "original" "original" = true := rfl
  have hKV : slotKV kk vk bp ad
      ⟨1, cond, uncond, ipl, mask, "original", ss, se, ub⟩ =
      slotKV kk vk bp ad
      ⟨1, cond, uncond, ipl, mask, "channel penalty", ss, se, ub⟩ := rfl
  rcases cou with _ | ⟨c0, rest⟩
  · exact absurd rfl hcou
  have hc : (catListB (List.map (fun i => if i = 0 then
      (slotKV kk vk bp ad
        ⟨1, cond, uncond, ipl, mask, "channel penalty", ss, se, ub⟩).1 else
      (slotKV kk vk bp ad
        ⟨1, cond, uncond, ipl, mask, "channel penalty", ss, se, ub⟩).2.1)
      (c0 :: rest))).c = 1280 := by
    simp only [List.map_cons]
    rw [catListB_cons_c]
    by_cases h0 : c0 = 0
    · rw [if_pos h0, slotKV_k_cond_c]
      exact hdim
    · rw [if_neg h0, slotKV_k_uncond_c]
      exact hdim
  rcases mask with _ | m
  · simp only [slotOutIp, hL, hC, hO, hL2, hC2, hO2, Bool.false_eq_true,
      if_false, if_true, hKV]
    exact channel_branch_eq q _ _ heads hc
  · simp only [slotOutIp, hL, hC, hO, hL2, hC2, hO2, Bool.false_eq_true,
      if_false, if_true, hKV]
    rw [channel_branch_eq q _ _ heads hc]

/-- A concrete channel-penalty slot whose key projection has width 1280,
used by the channel-identity witness. -/
def slotC4 : Slot :=
  ⟨1, ⟨1, 1, 4, fun _ _ _ => 2⟩, ⟨1, 1, 4, fun _ _ _ => 0⟩,
    ⟨fun _ => ⟨4, 1280, fun _ _ => 1⟩⟩, none, "channel penalty", 0, 1,
    false⟩

theorem spec_C4_channel_identity_witness :
    slotOutIp "1_to_k_ip" "1_to_v_ip" ⟨1, 1, 1280, fun _ _ _ => 1⟩ [0] 1
        none 1 1 1 1 1280 slotC4 =
      slotOutIp "1_to_k_ip" "1_to_v_ip" ⟨1, 1, 1280, fun _ _ _ => 1⟩ [0] 1
        none 1 1 1 1 1280
        ⟨slotC4.weight, slotC4.cond, slotC4.uncond, slotC4.ip_layers,
          slotC4.mask, "original", slotC4.sigma_start, slotC4.sigma_end,
          slotC4.unfold_batch⟩ :=
  spec_C4_channel_identity "1_to_k_ip" "1_to_v_ip"
    ⟨1, 1, 1280, fun _ _ _ => 1⟩ [0] 1 none 1 1 1 1 1280 slotC4 rfl rfl rfl
    (by simp)

theorem sum_center_zero (N : Nat) (g : Nat → ℚ) :
    ∑ t ∈ Finset.range N,
      (g t - (∑ u ∈ Finset.range N, g u) / (N : ℚ)) = 0 := by
  rw [Finset.sum_sub_distrib, Finset.sum_const, Finset.card_range,
    nsmul_eq_mul]
  rcases Nat.eq_zero_or_pos N with h | h
  · subst h
    simp
  · have hN : (N : ℚ) ≠ 0 := Nat.cast_ne_zero.mpr h.ne'
    rw [mul_comm, div_mul_cancel₀ _ hN, sub_self]

theorem slotKV_n_cond (kk vk : String) (bp : Nat) (ad : Option ADParams)
    (s : Slot) :
    (slotKV kk vk bp ad s).1.n = (slotKV kk vk bp ad s).2.2.1.n := by
  by_cases h : (s.unfold_batch && decide (1 < s.cond.b)) = true <;>
    simp [slotKV, h, LinMap.apply, T3.repeatBatch]

theorem slotKV_n_uncond (kk vk : String) (bp : Nat) (ad : Option ADParams)
    (s : Slot) :
    (slotKV kk vk bp ad s).2.1.n = (slotKV kk vk bp ad s).2.2.2.n := by
  by_cases h : (s.unfold_batch && decide (1 < s.cond.b)) = true <;>
    simp [slotKV, h, LinMap.apply, T3.repeatBatch]

theorem cat_kv_n (kk vk : String) (bp : Nat) (ad : Option ADParams)
    (s : Slot) (cou : List Nat) :
    (catListB (cou.map fun i => if i = 0 then (slotKV kk vk bp ad s).1
      else (slotKV kk vk bp ad s).2.1)).n =
    (catListB (cou.map fun i => if i = 0 then (slotKV kk vk bp ad s).2.2.1
      else (slotKV kk vk bp ad s).2.2.2)).n := by
  rcases cou with _ | ⟨c0, rest⟩
  · rfl
  · simp only [List.map_cons]
    rw [catListB_cons_n, catListB_cons_n]
    by_cases h0 : c0 = 0
    · rw [if_pos h0, if_pos h0]
      exact slotKV_n_cond kk vk bp ad s
    · rw [if_neg h0, if_neg h0]
      exact slotKV_n_uncond kk vk bp ad s

theorem attend_channel_zero (q K V : T3) (heads : Nat) (hn : K.n = V.n) :
    ∀ i t e, (attend q (K.scale (0 * ((K.c : ℚ) / 1280)))
      ⟨V.b, V.n, V.c, fun i t e =>
        (V.data i t e -
            (∑ u ∈ Finset.range V.n, V.data i u e) / (V.n : ℚ)) +
          (∑ u ∈ Finset.range V.n, V.data i u e) / (V.n : ℚ) *
            (0 * ((K.c : ℚ) / 1280))⟩
      heads).data i t e = 0 := by
  intro i t e
  have hk : ∀ i t e,
      (K.scale (0 * ((K.c : ℚ) / 1280))).data i t e = 0 := by
    intro i t e
    simp [T3.scale]
  rw [attend_data_of_k_zero _ _ _ _ hk i t e]
  simp only [T3.scale, zero_mul, mul_zero, add_zero]
  rw [hn]
  rw [sum_center_zero V.n fun u => V.data i u e]
  exact zero_div _


theorem slotOutIp_data_zero (kk vk : String) (q : T3) (cou : List Nat)
    (bp : Nat) (ad : Option ADParams) (heads qs lh lw outC : Nat)
    (s : Slot) (hw : s.weight = 0)
    (ht : s.weight_type = "original" ∨ s.weight_type = "linear" ∨
      s.weight_type = "channel penalty") :
    ∀ i t e,
      (slotOutIp kk vk q cou bp ad heads qs lh lw outC s).data i t e = 0 := by
  obtain ⟨w, cond, uncond, ipl, mask, wt, ss, se, ub⟩ := s
  simp only at hw ht ⊢
  subst hw
  have hLo : strStartsWith "original" "linear" = false := rfl
  have hCo : strStartsWith "original" "channel" = false := rfl
  have hOo : strStartsWith "original" "original" = true := rfl
  have hLl : strStartsWith "linear" "linear" = true := rfl
  have hOl : strStartsWith "linear" "original" = false := rfl
  have hLc : strStartsWith "channel penalty" "linear" = false := rfl
  have hCc : strStartsWith "channel penalty" "channel" = true := rfl
  have hOc : strStartsWith "channel penalty" "original" = false := rfl
  rcases ht with h | h | h <;> subst h <;> intro i t e <;>
    rcases mask with _ | m
  · simp only [slotOutIp, hLo, hCo, hOo, Bool.false_eq_true, if_false,
      if_true]
    simp [T3.scale]
  · simp only [slotOutIp, hLo, hCo, hOo, Bool.false_eq_true, if_false,
      if_true]
    simp [T3.scale, T3.mul]
  · simp only [slotOutIp, hLl, hOl, Bool.false_eq_true, if_false, if_true]
    exact attend_data_of_v_zero q _ _ heads
      (fun a b c => by simp [T3.scale]) i t e
  · simp only [slotOutIp, hLl, hOl, Bool.false_eq_true, if_false, if_true]
    show (T3.mul _ _).data i t e = 0
    simp only [T3.mul]
    refine mul_eq_zero_of_left ?_ _
    exact attend_data_of_v_zero q _ _ heads
      (fun a b c => by simp [T3.scale]) i t e
  · simp only [slotOutIp, hLc, hCc, hOc, Bool.false_eq_true, if_false,
      if_true]
    exact attend_channel_zero q _ _ heads
      (cat_kv_n kk vk bp ad _ cou) i t e
  · simp only [slotOutIp, hLc, hCc, hOc, Bool.false_eq_true, if_false,
      if_true]
    show (T3.mul _ _).data i t e = 0
    simp only [T3.mul]
    refine mul_eq_zero_of_left ?_ _
    exact attend_channel_zero q _ _ heads
      (cat_kv_n kk vk bp ad _ cou) i t e

theorem foldl_gate_zero (kk vk : String) (q : T3) (cou : List Nat)
    (bp : Nat) (ad : Option ADParams) (heads qs lh lw : Nat) (sg : ℚ) :
    ∀ (l : List Slot) (a : T3),
    (∀ s ∈ l, ∀ outC i t e,
      (slotOutIp kk vk q cou bp ad heads qs lh lw outC s).data i t e = 0) →
    l.foldl (fun out s =>
        if s.sigma_start < sg ∨ sg < s.sigma_end then out
        else out.add (slotOutIp kk vk q cou bp ad heads qs lh lw out.c s))
      a = a := by
  intro l
  induction l with
  | nil =>
    intro a _
    rfl
  | cons s rest ih =>
    intro a h
    rw [List.foldl_cons]
    by_cases hg : s.sigma_start < sg ∨ sg < s.sigma_end
    · rw [if_pos hg]
      exact ih a fun x hx => h x (List.mem_cons_of_mem s hx)
    · rw [if_neg hg]
      have hadd :
          a.add (slotOutIp kk vk q cou bp ad heads qs lh lw a.c s) = a := by
        refine T3.eqOf rfl rfl rfl ?_
        funext i t e
        show a.data i t e + _ = a.data i t e
        rw [h s (List.mem_cons_self s rest) a.c i t e, add_zero]
      rw [hadd]
      exact ih a fun x hx => h x (List.mem_cons_of_mem s hx)

/-- Claim C2: end-to-end zero-weight neutrality.  If every slot of a
`CrossAttentionPatch` has weight 0 and one of the three weighting modes
(`"original"`, `"linear"`, `"channel penalty"`), then `__call__` returns
exactly the base attention output of step 1 (the final dtype cast is the
identity in the exact-rational model), for any input shapes. -/
theorem spec_C2_zero_weight (p : CrossAttentionPatch) (n k v : T3)
    (eo : ExtraOptions)
    (hz : ∀ s ∈ zipSlots p, s.weight = 0 ∧
      (s.weight_type = "original" ∨ s.weight_type = "linear" ∨
        s.weight_type = "channel penalty")) :
    p.call n k v eo = attend n k v eo.n_heads :=
  foldl_gate_zero p.k_key p.v_key n eo.cond_or_uncond
    (n.b / eo.cond_or_uncond.length) eo.ad_params eo.n_heads n.n
    eo.original_shape.2.2.1 eo.original_shape.2.2.2 (sigmaOf eo)
    (zipSlots p) (attend n k v eo.n_heads)
    fun s hs outC i t e =>
      slotOutIp_data_zero p.k_key p.v_key n eo.cond_or_uncond
        (n.b / eo.cond_or_uncond.length) eo.ad_params eo.n_heads n.n
        eo.original_shape.2.2.1 eo.original_shape.2.2.2 outC s (hz s hs).1
        (hz s hs).2 i t e

theorem spec_C2_zero_weight_witness :
    (CrossAttentionPatch.init kwA).call ⟨1, 1, 1, fun _ _ _ => 2⟩
        ⟨1, 1, 1, fun _ _ _ => 3⟩ ⟨1, 1, 1, fun _ _ _ => 4⟩
        ⟨[0], some (1 / 2), none, 1, (1, 1, 1, 1)⟩ =
      attend ⟨1, 1, 1, fun _ _ _ => 2⟩ ⟨1, 1, 1, fun _ _ _ => 3⟩
        ⟨1, 1, 1, fun _ _ _ => 4⟩ 1 := by
  refine spec_C2_zero_weight _ _ _ _ _ ?_
  intro s hs
  have hz : zipSlots (CrossAttentionPatch.init kwA) =
      [⟨kwA.weight, kwA.cond, kwA.uncond, kwA.ip_layers, kwA.mask,
        kwA.weight_type, kwA.sigma_start, kwA.sigma_end,
        kwA.unfold_batch⟩] := rfl
  rw [hz, List.mem_singleton] at hs
  subst hs
  exact ⟨rfl, Or.inl rfl⟩

end IPA
